import Mathlib

/-!
# NekoNet network module: shallow embedding and verification

Shallow embedding of `src/include/neko/network/networkCommon.hpp` and, where
the core `Network` class (`network.hpp` / `networkTypes.hpp`) is not part of
the visible sources, definitions modelled from the specification `spec.md`.

Conventions:
* C++ `std::string` is Lean `String`; `std::vector<std::string>` is `List String`.
* `neko::uint64` is `Nat` reduced modulo `2^64` where C++ wraparound matters.
* Stateful code (the process-wide config, the logger/executor factories,
  the write-callback context) is embedded by explicit state passing.
-/

namespace NekoNet

/-- `neko::uint64` modulus: unsigned 64-bit arithmetic wraps modulo `2^64`. -/
def u64Mod : Nat := 2 ^ 64

/-! ## Process-wide configuration (`neko::network::config::NetConfig`) -/

/-- State of `config::NetConfig`: user agent, proxy, protocol and the ordered
host candidate list (`availableHostList`).  The C++ class guards the fields
with a `shared_mutex`; the sequential embedding drops the lock and keeps the
data. -/
structure NetConfig where
  userAgent : String
  proxy : String
  protocol : String
  availableHostList : List String
  deriving Repr, DecidableEq

/-- `NetConfig::getAvailableHost`: the first entry of `availableHostList`,
or the empty string when the list is empty. -/
def NetConfig.getAvailableHost (c : NetConfig) : String :=
  match c.availableHostList with
  | [] => ""
  | h :: _ => h

/-- `NetConfig::getProtocol`. -/
def NetConfig.getProtocol (c : NetConfig) : String := c.protocol

/-- `NetConfig::getUserAgent`. -/
def NetConfig.getUserAgent (c : NetConfig) : String := c.userAgent

/-- `NetConfig::getProxy`. -/
def NetConfig.getProxy (c : NetConfig) : String := c.proxy

/-- `NetConfig::setUserAgent` (returns the updated config, as the C++ method
returns `*this` for chaining). -/
def NetConfig.setUserAgent (c : NetConfig) (ua : String) : NetConfig :=
  { c with userAgent := ua }

/-- `NetConfig::setProxy`. -/
def NetConfig.setProxy (c : NetConfig) (p : String) : NetConfig :=
  { c with proxy := p }

/-- `NetConfig::setProtocol`. -/
def NetConfig.setProtocol (c : NetConfig) (p : String) : NetConfig :=
  { c with protocol := p }

/-- `NetConfig::setAvailableHostList`. -/
def NetConfig.setAvailableHostList (c : NetConfig) (hosts : List String) : NetConfig :=
  { c with availableHostList := hosts }

/-! ## URL building and module initialization (`networkCommon.hpp`) -/

/-- `neko::network::buildUrl(path, host, protocol)`: the literal concatenation
`protocol + host + path` (source line `return (protocol + host + path);`). -/
def buildUrl (path host protocol : String) : String :=
  protocol ++ host ++ path

/-- `buildUrl` with its default arguments: the host defaults to
`config::globalConfig.getAvailableHost()` and the protocol to
`config::globalConfig.getProtocol()`. -/
def buildUrlDefault (g : NetConfig) (path : String) : String :=
  buildUrl path g.getAvailableHost g.getProtocol

/-- `neko::network::initialize(updateNetCfg)` acting on the global config `g`:
when the update function is non-null it is applied to `g`; otherwise the
defaults `protocol = "https://"`, the NekoNetwork user agent, and
`proxy = "true"` are installed (in that chained order). -/
def initializeNet (updateNetCfg : Option (NetConfig → NetConfig)) (g : NetConfig) : NetConfig :=
  match updateNetCfg with
  | some f => f g
  | none =>
      ((g.setProtocol "https://").setUserAgent
          "NekoNetwork/v1.0.2 +https://github.com/moehoshio/NekoNetwork").setProxy "true"

/-! ## Response sinks and the result value model

The response-sink types of the C++ code are `std::string`, `std::vector<char>`
and `std::fstream`; all expose an append-style write.  `Sink` captures the
emptiness test that `hasContent()` performs per concrete type. -/

/-- A file-backed stream sink (`std::fstream`): modelled by the byte list that
has been written to the file. -/
structure FileSink where
  bytes : List Nat
  deriving Repr, DecidableEq

/-- Per-sink-type operations needed by the result model: the freshly
constructed (empty) sink and the emptiness test. -/
class Sink (σ : Type) where
  emptySink : σ
  isEmptySink : σ → Bool

instance : Sink String := ⟨"", String.isEmpty⟩

instance : Sink (List Nat) := ⟨[], List.isEmpty⟩

instance : Sink FileSink := ⟨⟨[]⟩, fun f => f.bytes.isEmpty⟩

/-- Modelled from the spec: `NetworkResult<SinkT>` (`networkTypes.hpp` is not
among the visible sources).  Fields per spec §3: `statusCode` (0 = never
attempted), `content` of the per-call sink type, `hasError`, `errorMessage`,
`detailedErrorMessage`. -/
structure NetworkResult (σ : Type) where
  statusCode : Nat
  content : σ
  hasError : Bool
  errorMessage : String
  detailedErrorMessage : String

/-- Modelled from the spec: `isSuccess()` relative to the call's success-code
set — `statusCode ∈ successCodes ∧ !hasError` (spec §3 invariant; the
defaults are `{200,204}` for retry and `{200,206}` for multi-download). -/
def NetworkResult.isSuccess {σ : Type} (r : NetworkResult σ) (successCodes : List Nat) : Bool :=
  successCodes.contains r.statusCode && !r.hasError

/-- Modelled from the spec: `hasContent()` — the content is non-empty,
independent of the sink type (spec §3 invariant). -/
def NetworkResult.hasContent {σ : Type} [Sink σ] (r : NetworkResult σ) : Bool :=
  !(Sink.isEmptySink r.content)

/-! ## Request / retry / multi-download configuration -/

/-- `RequestType` (HTTP method). -/
inductive RequestType where
  | get | post | head | put | delete | patch
  deriving Repr, DecidableEq

/-- Modelled from the spec: `RequestConfig` — target URL, method, raw header
block, request body, user agent (spec §3). -/
structure RequestConfig where
  url : String
  method : RequestType
  userAgent : String
  header : String
  postData : String

/-- Modelled from the spec: `RetryConfig` — embeds one `RequestConfig`;
`maxRetries` (default 3), fixed `retryDelay` in milliseconds (default 150),
`successCodes` (default `{200, 204}`). -/
structure RetryConfig where
  config : RequestConfig
  maxRetries : Nat
  retryDelayMs : Nat
  successCodes : List Nat

/-- The multi-download partitioning approach (`MultiDownloadConfig::Approach`). -/
inductive Approach where
  | auto | thread | size
  deriving Repr, DecidableEq

/-- Modelled from the spec: `MultiDownloadConfig` — approach, `segmentParam`
(segment count under `Thread`, bytes per segment under `Size`, ignored or
derived under `Auto`), `successCodes` (default `{200, 206}`). -/
structure MultiDownloadConfig where
  approach : Approach
  segmentParam : Nat
  successCodes : List Nat

/-! ## Write callback (`helper::writeToCallback`) -/

/-- `helper::WriteCallbackContext<T>`: sink buffer, optional progress
callback, running `totalBytes` counter (a `neko::uint64`, so it wraps modulo
`2^64`).  The buffer is modelled as the byte list written so far; the
presence of a usable progress callback (`ctx->progressCallback &&
*ctx->progressCallback` in the source) is a single flag. -/
structure WriteCallbackContext where
  buffer : List Nat
  hasProgressCallback : Bool
  totalBytes : Nat
  deriving Repr, DecidableEq

/-- `helper::writeToCallback(ptr, size, nmemb, userdata)`: computes
`written = size * nmemb` (64-bit product), appends the first `written` bytes
at `ptr` to the sink buffer, bumps `totalBytes`, invokes the progress
callback (when present) once with the new cumulative total, and returns
`written`.  The result is the returned count, the updated context, and the
list of progress-callback invocations this call performed (each entry the
value passed to the callback). -/
def writeToCallback (data : List Nat) (size nmemb : Nat) (ctx : WriteCallbackContext) :
    Nat × WriteCallbackContext × List Nat :=
  let written := size * nmemb % u64Mod
  let newTotal := (ctx.totalBytes + written) % u64Mod
  let ctx' : WriteCallbackContext :=
    { buffer := ctx.buffer ++ data.take written
      hasProgressCallback := ctx.hasProgressCallback
      totalBytes := newTotal }
  (written, ctx', if ctx.hasProgressCallback then [newTotal] else [])

/-- Drives `writeToCallback` over a sequence of delivered chunks (each chunk
a triple of the bytes at `ptr`, `size` and `nmemb`), threading the context
and collecting every call's returned count and the full trace of
progress-callback invocations. -/
def writeChunks (ctx : WriteCallbackContext) :
    List (List Nat × Nat × Nat) → WriteCallbackContext × List Nat × List Nat
  | [] => (ctx, [], [])
  | (data, size, nmemb) :: rest =>
      let r := writeToCallback data size nmemb ctx
      let rec' := writeChunks r.2.1 rest
      (rec'.1, r.1 :: rec'.2.1, r.2.2 ++ rec'.2.2)

/-! ## Process-wide logger / executor factories
(`log::setLoggerFactory` / `log::createLogger`,
`executor::setExecutorFactory` / `executor::createExecutor`)

Both are a mutable process-wide factory cell: `setXFactory(f)` overwrites the
cell, `createX()` invokes the currently stored factory.  The cell is embedded
as explicit state of type `Unit → α` (the stored `std::function` producing an
`α`, the shared-pointer-to-instance the factory yields). -/

/-- `log::setLoggerFactory(factory)`: replace the stored factory. -/
def setLoggerFactory {α : Type} (factory : Unit → α) (_old : Unit → α) : Unit → α :=
  factory

/-- `log::createLogger()`: invoke the stored factory (`getLoggerFactory()()`). -/
def createLogger {α : Type} (state : Unit → α) : α :=
  state ()

/-- `executor::setExecutorFactory(factory)`: replace the stored factory. -/
def setExecutorFactory {α : Type} (factory : Unit → α) (_old : Unit → α) : Unit → α :=
  factory

/-- `executor::createExecutor()`: invoke the stored factory
(`getExecutorFactory()()`). -/
def createExecutor {α : Type} (state : Unit → α) : α :=
  state ()

/-- An operation against a factory cell: either replace the factory or create
an instance.  `create` leaves the cell untouched (`createLogger` /
`createExecutor` only read the cell). -/
inductive FactoryOp (α : Type) where
  | set (factory : Unit → α)
  | create

/-- Run a sequence of factory-cell operations, returning the final state of
the cell. -/
def runFactoryOps {α : Type} (state : Unit → α) : List (FactoryOp α) → (Unit → α)
  | [] => state
  | FactoryOp.set f :: rest => runFactoryOps (setLoggerFactory f state) rest
  | FactoryOp.create :: rest => runFactoryOps state rest

/-! ## URL validation and `Network::execute`
(`network.hpp` is not among the visible sources; modelled from spec §4.1) -/

/-- Splits a character list at the first occurrence of `"://"`, returning
the characters before it and the characters after it, or `none` when no
`"://"` occurs. -/
def splitScheme : List Char → Option (List Char × List Char)
  | [] => none
  | ':' :: '/' :: '/' :: rest => some ([], rest)
  | c :: rest =>
      match splitScheme rest with
      | none => none
      | some (s, r) => some (c :: s, r)

/-- The host portion of the part after `"://"`: the characters up to the
first `/`. -/
def hostPart : List Char → List Char
  | [] => []
  | '/' :: _ => []
  | c :: rest => c :: hostPart rest

/-- Modelled from the spec: a URL is structurally valid when a scheme and a
host are parseable — a non-empty scheme before `"://"` and a non-empty host
between `"://"` and the next `/`.  Spec §4.1: reject "when the URL is empty
or structurally invalid (no scheme/host parseable)". -/
def isValidUrl (url : String) : Bool :=
  match splitScheme url.data with
  | none => false
  | some (scheme, rest) => !scheme.isEmpty && !(hostPart rest).isEmpty

/-- The tuple the external transport collaborator produces for one request
(spec §6): status code, streamed body, raw header text, optional transport
error. -/
structure TransportResponse (σ : Type) where
  statusCode : Nat
  body : σ
  headerText : String
  transportError : Option String

/-- Modelled from the spec: `Network::execute<SinkT>(RequestConfig)`.  An
empty or structurally invalid URL is rejected locally: no transport call,
`statusCode` stays 0, `hasError = true`.  Otherwise the request goes through
the transport collaborator and its tuple is repackaged as the result; a
transport-reported error sets `hasError` with the message copied verbatim,
while a status outside the success set alone does not set `hasError`.  The
returned `Bool` records whether the transport collaborator was invoked. -/
def execute {σ : Type} [Sink σ] (transport : RequestConfig → TransportResponse σ)
    (cfg : RequestConfig) : NetworkResult σ × Bool :=
  if isValidUrl cfg.url then
    let resp := transport cfg
    ({ statusCode := resp.statusCode
       content := resp.body
       hasError := resp.transportError.isSome
       errorMessage := resp.transportError.getD ""
       detailedErrorMessage := resp.transportError.getD "" }, true)
  else
    ({ statusCode := 0
       content := Sink.emptySink
       hasError := true
       errorMessage := "Invalid URL"
       detailedErrorMessage := "URL is empty or has no parseable scheme/host" }, false)

/-! ## Retry orchestration (`Network::executeWithRetry`, modelled from spec §4.2) -/

/-- Modelled from the spec: the attempt loop of `executeWithRetry`.  `attempt
i` is the result the transport adapter produces for the `i`-th attempt (the
endpoint's behaviour); `remaining` counts the attempts still allowed after
the current one.  The first attempt whose result is a success is returned
immediately; when the budget is exhausted the last attempt's result is
returned verbatim. -/
def retryLoop {σ : Type} (attempt : Nat → NetworkResult σ) (successCodes : List Nat) :
    Nat → Nat → NetworkResult σ
  | i, 0 => attempt i
  | i, remaining + 1 =>
      if (attempt i).isSuccess successCodes then attempt i
      else retryLoop attempt successCodes (i + 1) remaining

/-- Modelled from the spec: `Network::executeWithRetry<SinkT>(RetryConfig)`.
Spec §4.2 leaves open whether the first attempt counts toward `maxRetries`;
this model fixes the contract as "`maxRetries` is the total attempt budget,
and at least one attempt is always made" (so `maxRetries = k` performs up to
`k` attempts, `k ≥ 1`). -/
def executeWithRetry {σ : Type} (attempt : Nat → NetworkResult σ) (cfg : RetryConfig) :
    NetworkResult σ :=
  retryLoop attempt cfg.successCodes 0 (cfg.maxRetries - 1)

/-! ## Segmented-download partitioning (modelled from spec §4.3, step Partition)

A segment is a pair `(start, length)` in bytes; the range it covers is
`[start, start + length)` (inclusive form `[start, start + length - 1]`). -/

/-- The segment list of the `Thread` approach, built front to back: every
segment has length `len` except the final one, which additionally receives
the remainder `rem`.  Arguments: per-segment length, remainder, current
start offset, number of segments still to produce. -/
def threadSegs (len rem : Nat) : Nat → Nat → List (Nat × Nat)
  | _start, 0 => []
  | start, 1 => [(start, len + rem)]
  | start, n + 2 => (start, len) :: threadSegs len rem (start + len) (n + 1)

/-- Modelled from the spec: `Thread` approach partition — segment count
`= segmentParam`, segment length `= floor(S / segmentParam)`, remainder
appended to the final segment (spec §4.3). -/
def partitionThread (n S : Nat) : List (Nat × Nat) :=
  threadSegs (S / n) (S % n) 0 n

/-- Ceiling division, as used for the `Size` approach's segment count
`ceil(S / segmentParam)`. -/
def ceilDiv (S len : Nat) : Nat :=
  (S + len - 1) / len

/-- The segment list of the `Size` approach, built front to back: each
segment has length `len`, the final one is shortened to the bytes that
remain.  Arguments: segment length, current start offset, bytes remaining,
number of segments still to produce. -/
def sizeSegs (len : Nat) : Nat → Nat → Nat → List (Nat × Nat)
  | _start, _rem, 0 => []
  | start, rem, 1 => [(start, rem)]
  | start, rem, n + 2 => (start, len) :: sizeSegs len (start + len) (rem - len) (n + 1)

/-- Modelled from the spec: `Size` approach partition — segment length
`= segmentParam` bytes, segment count `= ceil(S / segmentParam)`, last
segment shortened to fit (spec §4.3). -/
def partitionSize (len S : Nat) : List (Nat × Nat) :=
  sizeSegs len 0 S (ceilDiv S len)

/-- Modelled from the spec: minimum-size threshold of the `Auto` heuristic.
Spec §4.3 leaves the exact value open ("fall back to a single segment below
a minimum-size threshold"); the model fixes 1 MiB. -/
def autoMinSizeThreshold : Nat := 1048576

/-- Modelled from the spec: default thread count of the `Auto` heuristic
above the threshold.  Spec §4.3 leaves the exact value open ("otherwise pick
a default thread count"); the model fixes 4. -/
def autoDefaultThreadCount : Nat := 4

/-- Modelled from the spec: the Partition step for total size `S` under the
chosen approach (spec §4.3).  A degenerate `segmentParam` of `0` is clamped
to `1` under `Thread`/`Size`, as required for the documented partition
invariant to hold for any input; `Auto` ignores `segmentParam` and selects
deterministically by the fixed heuristic. -/
def partition : Approach → Nat → Nat → List (Nat × Nat)
  | Approach.thread, p, S => partitionThread (max 1 p) S
  | Approach.size, p, S => partitionSize (max 1 p) S
  | Approach.auto, _, S =>
      if S < autoMinSizeThreshold then [(0, S)]
      else partitionThread autoDefaultThreadCount S

/-- The segment list is contiguous when read left to right starting at
offset `s`: each segment starts exactly where the previous one ended. -/
def contiguousFrom : Nat → List (Nat × Nat) → Prop
  | _, [] => True
  | s, (st, len) :: rest => st = s ∧ contiguousFrom (s + len) rest

/-- Sum of the segment lengths of a partition. -/
def sumLens (ps : List (Nat × Nat)) : Nat :=
  (ps.map Prod.snd).sum

/-- The byte ranges of two segments, in list order: the earlier one ends at
or before the start of the later one (disjointness and ascending order). -/
def segBefore (a b : Nat × Nat) : Prop :=
  a.1 + a.2 ≤ b.1

/-- Running cumulative totals of a list, starting from `acc`: entry `i` is
`acc` plus the sum of the first `i + 1` elements. -/
def runningTotalsFrom (acc : Nat) : List Nat → List Nat
  | [] => []
  | x :: xs => (acc + x) :: runningTotalsFrom (acc + x) xs

/-! ## Concrete fixtures used by witnesses -/

/-- A response that an always-failing endpoint returns on every attempt:
HTTP 500, no transport error. -/
def alwaysFail500 : NetworkResult String :=
  { statusCode := 500, content := "", hasError := false
    errorMessage := "", detailedErrorMessage := "" }

/-- The default `RetryConfig` around a fixed request (defaults per the data
model: `maxRetries = 3`, `retryDelay = 150 ms`, `successCodes = {200,204}`). -/
def defaultRetryConfig (rc : RequestConfig) : RetryConfig :=
  { config := rc, maxRetries := 3, retryDelayMs := 150, successCodes := [200, 204] }

/-- A GET request against an empty URL, as in the spec's scenario
`execute({url: "", method: Get})`. -/
def emptyUrlRequest : RequestConfig :=
  { url := "", method := RequestType.get, userAgent := "", header := "", postData := "" }

/-- A trivial transport collaborator used by witnesses: always answers 200
with an empty body and no transport error. -/
def trivialTransport : RequestConfig → TransportResponse String :=
  fun _ => { statusCode := 200, body := "", headerText := "", transportError := none }

/-! ## Theorems -/

/-- C1: For every NetworkResult, regardless of sink type, `isSuccess()`
returns true if and only if its `statusCode` is a member of the call's
`successCodes` set and `hasError` is false. -/
theorem isSuccess_iff_mem_successCodes_and_no_error
    {σ : Type} (r : NetworkResult σ) (successCodes : List Nat) :
    r.isSuccess successCodes = true ↔
      (r.statusCode ∈ successCodes ∧ r.hasError = false) := by
  simp [NetworkResult.isSuccess, List.elem_iff]

/-- A string's `isEmpty` is `false` exactly when the string is not `""`. -/
theorem string_isEmpty_false_iff (s : String) : s.isEmpty = false ↔ s ≠ "" := by
  constructor
  · intro h he
    rw [he] at h
    exact absurd h (by decide)
  · intro h
    cases hh : s.isEmpty with
    | false => rfl
    | true => exact absurd ((String.isEmpty_iff s).mp hh) h

/-- C7: For every NetworkResult, regardless of sink type (string, byte
buffer, file-backed stream), `hasContent()` returns true if and only if the
content is non-empty. -/
theorem hasContent_iff_nonempty :
    (∀ r : NetworkResult String, r.hasContent = true ↔ r.content ≠ "") ∧
    (∀ r : NetworkResult (List Nat), r.hasContent = true ↔ r.content ≠ []) ∧
    (∀ r : NetworkResult FileSink, r.hasContent = true ↔ r.content.bytes ≠ []) := by
  refine ⟨fun r => ?_, fun r => ?_, fun r => ?_⟩
  · rw [NetworkResult.hasContent, Bool.not_eq_true']
    exact string_isEmpty_false_iff r.content
  · simp [NetworkResult.hasContent, Sink.isEmptySink]
  · simp [NetworkResult.hasContent, Sink.isEmptySink]

/-- The `Thread` segment list is contiguous from its start offset. -/
theorem threadSegs_contig (len rem : Nat) :
    (n : Nat) → (start : Nat) → contiguousFrom start (threadSegs len rem start n)
  | 0, _ => True.intro
  | 1, _start => ⟨rfl, True.intro⟩
  | n + 2, start => ⟨rfl, threadSegs_contig len rem (n + 1) (start + len)⟩

/-- The `Thread` segment list has exactly `n` segments. -/
theorem threadSegs_length (len rem : Nat) :
    (n : Nat) → (start : Nat) → (threadSegs len rem start n).length = n
  | 0, _ => rfl
  | 1, _ => rfl
  | n + 2, start => by
      have ih := threadSegs_length len rem (n + 1) (start + len)
      simp only [threadSegs, List.length_cons, ih]

/-- The `Thread` segment lengths: `n - 1` segments of length `len` followed
by a final segment of length `len + rem`. -/
theorem threadSegs_map_snd (len rem : Nat) :
    (n : Nat) → (start : Nat) → 1 ≤ n →
      (threadSegs len rem start n).map Prod.snd =
        List.replicate (n - 1) len ++ [len + rem]
  | 0, _, h => absurd h (by decide)
  | 1, _, _ => rfl
  | n + 2, start, _ => by
      have ih := threadSegs_map_snd len rem (n + 1) (start + len) (by omega)
      simp only [threadSegs, List.map_cons, ih, Nat.add_sub_cancel]
      rw [show n + 2 - 1 = n + 1 by omega, List.replicate_succ, List.cons_append]

/-- Sum of the `Thread` segment lengths: `n * len + rem` for `n ≥ 1`. -/
theorem threadSegs_sum (len rem : Nat) :
    (n : Nat) → (start : Nat) → 1 ≤ n →
      sumLens (threadSegs len rem start n) = n * len + rem
  | 0, _, h => absurd h (by decide)
  | 1, _, _ => by simp [threadSegs, sumLens]
  | n + 2, start, _ => by
      have ih := threadSegs_sum len rem (n + 1) (start + len) (by omega)
      simp only [threadSegs, sumLens, List.map_cons, List.sum_cons] at ih ⊢
      rw [ih]
      ring

/-- The `Size` segment list is contiguous from its start offset. -/
theorem sizeSegs_contig (len : Nat) :
    (n : Nat) → (start rem : Nat) → contiguousFrom start (sizeSegs len start rem n)
  | 0, _, _ => True.intro
  | 1, _, _ => ⟨rfl, True.intro⟩
  | n + 2, start, rem => ⟨rfl, sizeSegs_contig len (n + 1) (start + len) (rem - len)⟩

/-- Sum of the `Size` segment lengths: when the segment count is
`ceil(rem / len)` with `len ≥ 1` and `rem ≥ 1`, the lengths sum exactly to
`rem`. -/
theorem sizeSegs_sum (len : Nat) (hlen : 1 ≤ len) :
    (n : Nat) → (start rem : Nat) → 1 ≤ rem → n = ceilDiv rem len →
      sumLens (sizeSegs len start rem n) = rem
  | 0, _start, rem, hrem, hn => by
      exfalso
      have h1 : 1 ≤ (rem + len - 1) / len :=
        (Nat.one_le_div_iff (by omega)).mpr (by omega)
      rw [ceilDiv] at hn
      omega
  | 1, _start, rem, _, _ => by simp [sizeSegs, sumLens]
  | n + 2, start, rem, hrem, hn => by
      rw [ceilDiv] at hn
      have h2 : 2 ≤ (rem + len - 1) / len := by omega
      have hmul : 2 * len ≤ rem + len - 1 := (Nat.le_div_iff_mul_le (by omega)).mp h2
      have hgt : len + 1 ≤ rem := by omega
      have hsub : rem + len - 1 = rem - 1 + len := by omega
      have hdiv : (rem + len - 1) / len = (rem - 1) / len + 1 := by
        rw [hsub, Nat.add_div_right _ (by omega)]
      have hceil : n + 1 = ceilDiv (rem - len) len := by
        rw [ceilDiv, show rem - len + len - 1 = rem - 1 by omega]
        omega
      have ih := sizeSegs_sum len hlen (n + 1) (start + len) (rem - len) (by omega) hceil
      simp only [sizeSegs, sumLens, List.map_cons, List.sum_cons] at ih ⊢
      rw [ih]
      omega

/-- A contiguous segment list starting at `s` only contains segments whose
start offset is at least `s`. -/
theorem contiguousFrom_le :
    (ps : List (Nat × Nat)) → (s : Nat) → contiguousFrom s ps →
      ∀ p ∈ ps, s ≤ p.1
  | [], _, _ => by intro p hp; cases hp
  | (st, l) :: rest, s, h => by
      intro p hp
      rw [List.mem_cons] at hp
      rcases hp with hp | hp
      · rw [hp]
        exact Nat.le_of_eq h.1.symm
      · have := contiguousFrom_le rest (s + l) h.2 p hp
        omega

/-- A contiguous segment list is pairwise disjoint and ascending: in list
order, each segment's range ends at or before the next segment starts. -/
theorem contiguousFrom_pairwise :
    (ps : List (Nat × Nat)) → (s : Nat) → contiguousFrom s ps →
      ps.Pairwise segBefore
  | [], _, _ => List.Pairwise.nil
  | (st, l) :: rest, s, h => by
      refine List.Pairwise.cons ?_ (contiguousFrom_pairwise rest (s + l) h.2)
      intro b hb
      have hble := contiguousFrom_le rest (s + l) h.2 b hb
      have : st = s := h.1
      simp only [segBefore]
      omega

/-- C2: For every total size `S > 0` and every approach, the Partition step
produces disjoint, contiguous, ascending byte ranges covering `[0, S)` with
no gaps and no overlaps, whose lengths sum exactly to `S`. -/
theorem partition_ranges_valid (a : Approach) (p S : Nat) (hS : 0 < S) :
    contiguousFrom 0 (partition a p S) ∧
    sumLens (partition a p S) = S ∧
    (partition a p S).Pairwise segBefore := by
  have key : contiguousFrom 0 (partition a p S) ∧ sumLens (partition a p S) = S := by
    cases a with
    | thread =>
        refine ⟨threadSegs_contig _ _ _ _, ?_⟩
        show sumLens (partitionThread (max 1 p) S) = S
        rw [partitionThread, threadSegs_sum _ _ _ _ (le_max_left 1 p)]
        exact Nat.div_add_mod S (max 1 p)
    | size =>
        refine ⟨sizeSegs_contig _ _ _ _, ?_⟩
        show sumLens (partitionSize (max 1 p) S) = S
        rw [partitionSize]
        exact sizeSegs_sum (max 1 p) (le_max_left 1 p) _ 0 S hS rfl
    | auto =>
        by_cases hT : S < autoMinSizeThreshold
        · simp only [partition, if_pos hT]
          exact ⟨⟨rfl, True.intro⟩, by simp [sumLens]⟩
        · simp only [partition, if_neg hT]
          refine ⟨threadSegs_contig _ _ _ _, ?_⟩
          rw [partitionThread, threadSegs_sum _ _ _ _ (by decide)]
          exact Nat.div_add_mod S autoDefaultThreadCount
  exact ⟨key.1, key.2, contiguousFrom_pairwise _ 0 key.1⟩

/-- Witness for C2 at the `Size` approach with 1024-byte segments over a
4000-byte resource. -/
theorem partition_ranges_valid_witness :
    0 < 4000 ∧
    (contiguousFrom 0 (partition Approach.size 1024 4000) ∧
     sumLens (partition Approach.size 1024 4000) = 4000 ∧
     (partition Approach.size 1024 4000).Pairwise segBefore) :=
  ⟨by decide, partition_ranges_valid Approach.size 1024 4000 (by decide)⟩

/-- C3: Under the `Thread` approach with total size `S` and
`segmentParam = n ≥ 1`, the Partition step produces exactly `n` segments,
each of length `floor(S / n)` except the final one, which additionally
receives the remainder `S mod n`; in particular a 4000-byte resource with
`segmentParam = 4` yields `[0,999], [1000,1999], [2000,2999], [3000,3999]`. -/
theorem partitionThread_segment_shape (n S : Nat) (hn : 1 ≤ n) :
    ((partition Approach.thread n S).length = n ∧
     (partition Approach.thread n S).map Prod.snd =
       List.replicate (n - 1) (S / n) ++ [S / n + S % n]) ∧
    (partition Approach.thread 4 4000).map (fun q => (q.1, q.1 + q.2 - 1)) =
      [(0, 999), (1000, 1999), (2000, 2999), (3000, 3999)] := by
  have hmax : max 1 n = n := Nat.max_eq_right hn
  refine ⟨⟨?_, ?_⟩, by decide⟩
  · show (partitionThread (max 1 n) S).length = n
    rw [hmax, partitionThread, threadSegs_length]
  · show (partitionThread (max 1 n) S).map Prod.snd = _
    rw [hmax, partitionThread, threadSegs_map_snd _ _ _ _ hn]

/-- Witness for C3 at `n = 4`, `S = 4000`. -/
theorem partitionThread_segment_shape_witness :
    1 ≤ 4 ∧
    (((partition Approach.thread 4 4000).length = 4 ∧
      (partition Approach.thread 4 4000).map Prod.snd =
        List.replicate (4 - 1) (4000 / 4) ++ [4000 / 4 + 4000 % 4]) ∧
     (partition Approach.thread 4 4000).map (fun q => (q.1, q.1 + q.2 - 1)) =
       [(0, 999), (1000, 1999), (2000, 2999), (3000, 3999)]) :=
  ⟨by decide, partitionThread_segment_shape 4 4000 (by decide)⟩

/-- C6: `buildUrl(path, host, protocol)` is the literal concatenation
`protocol + host + path` with no slash de-duplication or normalization, the
host defaulting to the first entry of the configured host list and the
protocol to the configured protocol; in particular
`buildUrl("/users/123", "api.example.com", "https://") =
"https://api.example.com/users/123"`. -/
theorem buildUrl_literal_concatenation :
    (∀ path host protocol : String,
        buildUrl path host protocol = protocol ++ host ++ path) ∧
    (∀ (g : NetConfig) (path : String),
        buildUrlDefault g path = g.protocol ++ g.getAvailableHost ++ path) ∧
    (∀ (ua px pr : String) (h : String) (t : List String),
        NetConfig.getAvailableHost ⟨ua, px, pr, h :: t⟩ = h) ∧
    buildUrl "/users/123" "api.example.com" "https://" =
      "https://api.example.com/users/123" ∧
    buildUrl "/users/123" "api.example.com/" "https://" =
      "https://api.example.com//users/123" := by
  refine ⟨fun _ _ _ => rfl, fun g path => rfl, fun _ _ _ _ _ => rfl, rfl, rfl⟩

/-- C10: `initialize` with a null update function sets the global config's
protocol to `"https://"`, the proxy to the literal string `"true"`, and a
non-empty default user agent, leaving the host list unchanged; with a
non-null update function it applies that function and installs none of the
defaults. -/
theorem initializeNet_defaults_and_custom :
    (∀ g : NetConfig,
        (initializeNet none g).protocol = "https://" ∧
        (initializeNet none g).proxy = "true" ∧
        (initializeNet none g).userAgent ≠ "" ∧
        (initializeNet none g).availableHostList = g.availableHostList) ∧
    (∀ (f : NetConfig → NetConfig) (g : NetConfig), initializeNet (some f) g = f g) := by
  constructor
  · intro g
    refine ⟨rfl, rfl, ?_, rfl⟩
    simp [initializeNet, NetConfig.setProxy, NetConfig.setUserAgent, NetConfig.setProtocol]
  · intro f g
    rfl

/-- When every attempt fails, the retry loop runs its whole budget and
returns the last attempt's result. -/
theorem retryLoop_all_fail {σ : Type} (attempt : Nat → NetworkResult σ)
    (codes : List Nat) (h : ∀ i, (attempt i).isSuccess codes = false) :
    ∀ (remaining i : Nat), retryLoop attempt codes i remaining = attempt (i + remaining)
  | 0, i => by simp [retryLoop]
  | remaining + 1, i => by
      rw [retryLoop, h i]
      simp only [Bool.false_eq_true, if_false]
      rw [retryLoop_all_fail attempt codes h remaining (i + 1)]
      congr 1
      omega

/-- The retry loop returns the first successful attempt within its budget. -/
theorem retryLoop_first_success {σ : Type} (attempt : Nat → NetworkResult σ)
    (codes : List Nat) :
    ∀ (remaining i j : Nat), i ≤ j → j ≤ i + remaining →
      (attempt j).isSuccess codes = true →
      (∀ m, i ≤ m → m < j → (attempt m).isSuccess codes = false) →
      retryLoop attempt codes i remaining = attempt j
  | 0, i, j, hij, hji, _, _ => by
      have : j = i := by omega
      rw [this, retryLoop]
  | remaining + 1, i, j, hij, hji, hj, hfail => by
      rw [retryLoop]
      by_cases hi : (attempt i).isSuccess codes = true
      · have hji' : j = i := by
          by_contra hne
          have hf := hfail i (Nat.le_refl i) (by omega)
          rw [hf] at hi
          exact absurd hi (by decide)
        rw [hji', if_pos hi]
      · rw [if_neg hi]
        have hij' : i + 1 ≤ j := by
          rcases Nat.eq_or_lt_of_le hij with heq | hlt
          · exact absurd (heq ▸ hj) hi
          · omega
        exact retryLoop_first_success attempt codes remaining (i + 1) j hij'
          (by omega) hj (fun m hm hmj => hfail m (by omega) hmj)

/-- C4: `executeWithRetry` returns immediately the result of the first
attempt whose status code is in `successCodes` with no error; if no attempt
succeeds within the budget, it returns the final attempt's result verbatim
(no distinct retries-exhausted marker), so against an endpoint that always
returns a non-success status with `maxRetries = k` the returned result
equals the final attempt's result. -/
theorem executeWithRetry_first_success_or_last
    {σ : Type} (attempt : Nat → NetworkResult σ) (cfg : RetryConfig) :
    (∀ j, j < cfg.maxRetries →
      (attempt j).isSuccess cfg.successCodes = true →
      (∀ i, i < j → (attempt i).isSuccess cfg.successCodes = false) →
      executeWithRetry attempt cfg = attempt j) ∧
    ((∀ i, (attempt i).isSuccess cfg.successCodes = false) →
      executeWithRetry attempt cfg = attempt (cfg.maxRetries - 1)) := by
  constructor
  · intro j hj hsucc hfail
    rw [executeWithRetry]
    exact retryLoop_first_success attempt cfg.successCodes (cfg.maxRetries - 1) 0 j
      (Nat.zero_le j) (by omega) hsucc (fun m _ hmj => hfail m hmj)
  · intro hfail
    rw [executeWithRetry]
    rw [retryLoop_all_fail attempt cfg.successCodes hfail (cfg.maxRetries - 1) 0]
    congr 1
    omega

/-- Witness for C4: an endpoint that always answers 500 under the default
retry configuration (`maxRetries = 3`) yields the final attempt's result. -/
theorem executeWithRetry_first_success_or_last_witness :
    executeWithRetry (fun _ => alwaysFail500) (defaultRetryConfig emptyUrlRequest) =
      alwaysFail500 :=
  (executeWithRetry_first_success_or_last (fun _ => alwaysFail500)
      (defaultRetryConfig emptyUrlRequest)).2 (fun _ => rfl)

/-- C5: `execute` rejects a request whose URL is empty or structurally
invalid locally — the transport collaborator is not called, and the result
has `hasError = true`, `statusCode = 0`. -/
theorem execute_rejects_invalid_url
    {σ : Type} [Sink σ] (transport : RequestConfig → TransportResponse σ)
    (cfg : RequestConfig) (h : cfg.url = "" ∨ isValidUrl cfg.url = false) :
    execute transport cfg =
      ({ statusCode := 0, content := Sink.emptySink, hasError := true
         errorMessage := "Invalid URL"
         detailedErrorMessage := "URL is empty or has no parseable scheme/host" }, false) := by
  have hinvalid : isValidUrl cfg.url = false := by
    rcases h with h | h
    · rw [h]
      decide
    · exact h
  rw [execute, hinvalid]
  simp

/-- Witness for C5: the spec scenario `execute({url: "", method: Get})`
against a concrete transport collaborator. -/
theorem execute_rejects_invalid_url_witness :
    execute trivialTransport emptyUrlRequest =
      ({ statusCode := 0, content := Sink.emptySink, hasError := true
         errorMessage := "Invalid URL"
         detailedErrorMessage := "URL is empty or has no parseable scheme/host" }, false) :=
  execute_rejects_invalid_url trivialTransport emptyUrlRequest (Or.inl rfl)

/-- One `writeToCallback` call, when the chunk really holds `size * nmemb`
bytes and the running total does not wrap: it returns `size * nmemb`,
appends the chunk to the buffer, bumps the total, and reports the new total
when the progress callback is present. -/
theorem writeToCallback_step (data : List Nat) (size nmemb t : Nat) (b : List Nat)
    (pc : Bool) (hd : data.length = size * nmemb) (hlt : t + size * nmemb < u64Mod) :
    writeToCallback data size nmemb ⟨b, pc, t⟩ =
      (size * nmemb, ⟨b ++ data, pc, t + size * nmemb⟩,
       if pc then [t + size * nmemb] else []) := by
  have hsn : size * nmemb < u64Mod := by omega
  have h1 : size * nmemb % u64Mod = size * nmemb := Nat.mod_eq_of_lt hsn
  simp only [writeToCallback, h1, Nat.mod_eq_of_lt hlt]
  rw [← hd, List.take_length]

/-- Driving `writeToCallback` over a chunk sequence from an arbitrary
starting buffer and total: the buffer receives every chunk in order, the
calls return the chunk byte counts, and the progress trace is the running
cumulative totals. -/
theorem writeChunks_trace :
    (chunks : List (List Nat × Nat × Nat)) → ∀ (b : List Nat) (t : Nat),
      (∀ c ∈ chunks, c.1.length = c.2.1 * c.2.2) →
      t + (chunks.map (fun c => c.2.1 * c.2.2)).sum < u64Mod →
      writeChunks ⟨b, true, t⟩ chunks =
        (⟨b ++ (chunks.map Prod.fst).flatten, true,
          t + (chunks.map (fun c => c.2.1 * c.2.2)).sum⟩,
         chunks.map (fun c => c.2.1 * c.2.2),
         runningTotalsFrom t (chunks.map (fun c => c.2.1 * c.2.2)))
  | [], b, t, _, _ => by simp [writeChunks, runningTotalsFrom]
  | (data, size, nmemb) :: rest, b, t, hlen, hsum => by
      have hd : data.length = size * nmemb := hlen _ (List.mem_cons_self _ _)
      simp only [List.map_cons, List.sum_cons] at hsum
      have ih := writeChunks_trace rest (b ++ data) (t + size * nmemb)
        (fun c hc => hlen c (List.mem_cons_of_mem _ hc)) (by omega)
      simp only [writeChunks, List.map_cons, List.sum_cons, List.flatten_cons]
      rw [writeToCallback_step data size nmemb t b true hd (by omega)]
      simp only [ih, runningTotalsFrom, List.singleton_append, ← List.append_assoc,
        ← Nat.add_assoc]
      simp

/-- C8: For every chunk sequence delivered through `writeToCallback` with
the same context, each call appends exactly `size * nmemb` bytes of the
chunk to the sink buffer, returns that byte count, and invokes the progress
callback (when set) exactly once with the cumulative total of all bytes
written to that context so far, including the current chunk. -/
theorem writeToCallback_appends_and_reports
    (chunks : List (List Nat × Nat × Nat)) (b : List Nat)
    (hlen : ∀ c ∈ chunks, c.1.length = c.2.1 * c.2.2)
    (hsum : (chunks.map (fun c => c.2.1 * c.2.2)).sum < u64Mod) :
    writeChunks ⟨b, true, 0⟩ chunks =
      (⟨b ++ (chunks.map Prod.fst).flatten, true,
        (chunks.map (fun c => c.2.1 * c.2.2)).sum⟩,
       chunks.map (fun c => c.2.1 * c.2.2),
       runningTotalsFrom 0 (chunks.map (fun c => c.2.1 * c.2.2))) := by
  have h := writeChunks_trace chunks b 0 hlen (by omega)
  simpa using h

/-- Witness for C8 at two concrete chunks of 2 and 3 bytes. -/
theorem writeToCallback_appends_and_reports_witness :
    writeChunks ⟨[1], true, 0⟩ ([([10, 20], 2, 1), ([30, 40, 50], 3, 1)] :
        List (List Nat × Nat × Nat)) =
      (⟨[1] ++ (([([10, 20], 2, 1), ([30, 40, 50], 3, 1)] :
            List (List Nat × Nat × Nat)).map Prod.fst).flatten, true,
        (([([10, 20], 2, 1), ([30, 40, 50], 3, 1)] :
            List (List Nat × Nat × Nat)).map (fun c => c.2.1 * c.2.2)).sum⟩,
       ([([10, 20], 2, 1), ([30, 40, 50], 3, 1)] :
          List (List Nat × Nat × Nat)).map (fun c => c.2.1 * c.2.2),
       runningTotalsFrom 0 (([([10, 20], 2, 1), ([30, 40, 50], 3, 1)] :
          List (List Nat × Nat × Nat)).map (fun c => c.2.1 * c.2.2))) :=
  writeToCallback_appends_and_reports _ [1] (by decide) (by decide)

/-- Running a sequence consisting only of `create` operations leaves the
factory cell untouched. -/
theorem runFactoryOps_creates_only {α : Type} (state : Unit → α) :
    (ops : List (FactoryOp α)) → (∀ op ∈ ops, op = FactoryOp.create) →
      runFactoryOps state ops = state
  | [], _ => rfl
  | op :: rest, h => by
      have hop := h op (List.mem_cons_self _ _)
      subst hop
      exact runFactoryOps_creates_only state rest
        (fun o ho => h o (List.mem_cons_of_mem _ ho))

/-- C9: After `setLoggerFactory(f)` (respectively `setExecutorFactory(f)`),
every subsequent `createLogger()` (respectively `createExecutor()`) call
returns exactly the object produced by invoking `f`, until the factory is
replaced by another set call — here, across any interleaving of further
`create` calls. -/
theorem factory_install_routes_until_reset
    {α β : Type} (f : Unit → α) (g : Unit → β) (s : Unit → α) (t : Unit → β)
    (opsL : List (FactoryOp α)) (opsE : List (FactoryOp β))
    (hL : ∀ op ∈ opsL, op = FactoryOp.create)
    (hE : ∀ op ∈ opsE, op = FactoryOp.create) :
    createLogger (runFactoryOps (setLoggerFactory f s) opsL) = f () ∧
    createExecutor (runFactoryOps (setExecutorFactory g t) opsE) = g () := by
  rw [runFactoryOps_creates_only _ opsL hL, runFactoryOps_creates_only _ opsE hE]
  exact ⟨rfl, rfl⟩

/-- Witness for C9 with concrete factories producing `42` and `7` and two
subsequent create calls each. -/
theorem factory_install_routes_until_reset_witness :
    createLogger (runFactoryOps (setLoggerFactory (fun _ => (42 : Nat)) (fun _ => 0))
        [FactoryOp.create, FactoryOp.create]) = 42 ∧
    createExecutor (runFactoryOps (setExecutorFactory (fun _ => (7 : Nat)) (fun _ => 0))
        [FactoryOp.create, FactoryOp.create]) = 7 :=
  factory_install_routes_until_reset (fun _ => (42 : Nat)) (fun _ => (7 : Nat))
    (fun _ => 0) (fun _ => 0) [FactoryOp.create, FactoryOp.create]
    [FactoryOp.create, FactoryOp.create]
    (by intro op hop
        rcases List.mem_cons.mp hop with h | h
        · exact h
        · rcases List.mem_cons.mp h with h2 | h2
          · exact h2
          · exact absurd h2 (List.not_mem_nil op))
    (by intro op hop
        rcases List.mem_cons.mp hop with h | h
        · exact h
        · rcases List.mem_cons.mp h with h2 | h2
          · exact h2
          · exact absurd h2 (List.not_mem_nil op))

/-- Witness for C1 at a concrete 200-status result against the default retry
success-code set. -/
theorem isSuccess_iff_witness :
    NetworkResult.isSuccess
        ({ statusCode := 200, content := "", hasError := false
           errorMessage := "", detailedErrorMessage := "" } : NetworkResult String)
        [200, 204] = true ↔
      (200 ∈ [200, 204] ∧ false = false) :=
  isSuccess_iff_mem_successCodes_and_no_error
    { statusCode := 200, content := "", hasError := false
      errorMessage := "", detailedErrorMessage := "" } [200, 204]

/-- Witness for C7 at a concrete string-sink result. -/
theorem hasContent_iff_witness :
    NetworkResult.hasContent
        ({ statusCode := 200, content := "abc", hasError := false
           errorMessage := "", detailedErrorMessage := "" } : NetworkResult String) = true ↔
      ("abc" : String) ≠ "" :=
  hasContent_iff_nonempty.1
    { statusCode := 200, content := "abc", hasError := false
      errorMessage := "", detailedErrorMessage := "" }

/-- Witness for C6: the spec's round-trip example. -/
theorem buildUrl_literal_concatenation_witness :
    buildUrl "/users/123" "api.example.com" "https://" =
      "https://api.example.com/users/123" :=
  buildUrl_literal_concatenation.2.2.2.1

/-- Witness for C10 at a concrete starting configuration. -/
theorem initializeNet_defaults_witness :
    (initializeNet none ⟨"", "", "", ["h1", "h2"]⟩).protocol = "https://" ∧
    (initializeNet none ⟨"", "", "", ["h1", "h2"]⟩).proxy = "true" ∧
    (initializeNet none ⟨"", "", "", ["h1", "h2"]⟩).userAgent ≠ "" ∧
    (initializeNet none ⟨"", "", "", ["h1", "h2"]⟩).availableHostList = ["h1", "h2"] :=
  initializeNet_defaults_and_custom.1 ⟨"", "", "", ["h1", "h2"]⟩

end NekoNet
